import Mathlib

/-!
# Verification of the real-time gesture stabilization engine

Shallow embedding of the per-frame decision pipeline of
`src/pages/GestureRecognition.tsx`:

* the geometric gesture classifier (`calcDistance` / `isFingerCurled` /
  `detectCustomGestures`, source lines 57-67 and 359-402);
* the temporal smoothing & voting window and the gesture segmentation state
  machine (`processLocalFrame`, source lines 470-544);
* the motion-gated capture trigger (`processCloudMotion`, source lines
  632-679) and the async analysis settling (`captureAndAnalyze`'s finally
  block, lines 728-731);
* the mode-switch reset effect (lines 307-322) and `stopCamera`
  (lines 280-291).

The mutable React refs of the source (`gestureHistoryRef`,
`lastConfirmedGestureRef`, `gestureCooldownRef`, `previousFrameRef`,
`lastCaptureTimeRef`, `isMotionDetectedRef`, `stabilityTimerRef`) and the
`gestureStatus` / `isProcessing` state values become fields of an explicit
`MachineState` record, and each per-frame handler becomes a pure step
function on that record, following the re-architecture described in the
spec's design notes (pure `step(frame_input, state)`).  Wall-clock readings
of `Date.now()` become an explicit `now : Int` in each input.
-/

namespace GestureRec

/-- One observation of the smoothing window: the per-frame
`{category, score}` record pushed into `gestureHistoryRef` (line 476). -/
structure Obs where
  category : String
  score : ℚ
deriving DecidableEq, Repr

/-- The five-valued `gestureStatus` React state (line 129). -/
inductive Status where
  | IDLE
  | MOVING
  | STABLE
  | CAPTURING
  | CONFIRMED
deriving DecidableEq, Repr

/-- The mutable pipeline state of the component: every ref and state value
the per-frame handlers read or write. -/
structure MachineState where
  gestureStatus : Status
  gestureHistory : List Obs
  lastConfirmedGesture : Option String
  gestureCooldown : Int
  previousFrame : Option (List Int)
  lastCaptureTime : Int
  isMotionDetected : Bool
  stabilityTimer : Int
  isProcessing : Bool
  stabilityThreshold : Int
  isActive : Bool
deriving DecidableEq, Repr

/-- `HISTORY_SIZE` (line 471). -/
def HISTORY_SIZE : Nat := 8

/-- `CONFIRMATION_THRESHOLD` (line 472): need 5/8 frames to agree. -/
def CONFIRMATION_THRESHOLD : Nat := 5

/-- `COOLDOWN_MS` (line 473). -/
def COOLDOWN_MS : Int := 1000

/-! ## Temporal smoothing & voting (lines 475-495)

The `counts` object of the source is a JS object whose keys are gesture
category names (never numeric-like strings), so `Object.entries` iterates
it in insertion order, i.e. in order of first occurrence in the history.
We model it as an association list kept in exactly that order. -/

/-- `counts[cat] = (counts[cat] || 0) + 1` on the association-list model:
increment the entry of `c` in place if present, else append a new entry. -/
def tallyInsert : List (String × Nat) → String → List (String × Nat)
  | [], c => [(c, 1)]
  | (k, n) :: rest, c =>
      if k = c then (k, n + 1) :: rest else (k, n) :: tallyInsert rest c

/-- The tally built by the `forEach` at lines 482-485. -/
def tallyVotes (h : List Obs) : List (String × Nat) :=
  h.foldl (fun m o => tallyInsert m o.category) []

/-- One step of the "Find winner" fold (lines 490-495): replace the
accumulator whenever a strictly larger count is seen. -/
def findWinnerF (acc p : String × Nat) : String × Nat :=
  if p.2 > acc.2 then p else acc

/-- The "Find winner" fold of lines 487-495, starting from
`("None", 0)`. -/
def findWinner (h : List Obs) : String × Nat :=
  (tallyVotes h).foldl findWinnerF ("None", 0)

/-- `smoothedGesture` of the source. -/
def voteWinner (h : List Obs) : String := (findWinner h).1

/-- `maxCount` of the source. -/
def voteCount (h : List Obs) : Nat := (findWinner h).2

/-- Number of occurrences of category `c` in the window. -/
def countCat (h : List Obs) (c : String) : Nat :=
  (h.map Obs.category).count c

/-- Lines 476-479: append the new observation, then `shift()` the oldest
out when the window exceeds `HISTORY_SIZE`. -/
def pushObservation (h : List Obs) (o : Obs) : List Obs :=
  let h1 := h ++ [o]
  if h1.length > HISTORY_SIZE then h1.tail else h1

/-- The window contents after feeding a whole observation sequence into an
initially empty history. -/
def runWindow (obs : List Obs) : List Obs :=
  obs.foldl pushObservation []

/-! ## Gesture segmentation state machine (lines 497-544) -/

/-- Input of one `processLocalFrame` call: whether `results.landmarks` is
nonempty (line 501), the per-frame category/score after the custom-gesture
override (lines 450-468), and the `Date.now()` reading (line 498). -/
structure LocalInput where
  handsDetected : Bool
  category : String
  score : ℚ
  now : Int
deriving DecidableEq, Repr

/-- A `ConfirmedGestureEvent`: the timestamp and label of a confirmation
(the `setResult`/`CONFIRMED` emission of lines 521-523). -/
abbrev GEvent := Int × String

/-- The smoothing/segmentation tail of `processLocalFrame`
(lines 470-544), as a pure step: push the observation, vote, then run the
transition rule.  Notes kept from the source:

* the push at line 476 happens before the hand-presence check, but the
  no-hands branch (lines 503-511) then clears the whole history, so the
  net effect is an empty history;
* in the no-hands branch `setGestureStatus('IDLE')` is guarded by
  `gestureStatus !== 'IDLE'`; the net post-state is `IDLE` either way;
* the cooldown-suppressed branch (the `if` at line 520 has no `else`)
  changes neither the status nor any ref except the history;
* the inner `else` of lines 540-543 is unreachable (that branch already
  has `handsDetected` true), so the ambiguous case always sets `MOVING`. -/
def processLocalFrame (s : MachineState) (inp : LocalInput) :
    MachineState × Option GEvent :=
  let hist2 := pushObservation s.gestureHistory ⟨inp.category, inp.score⟩
  let smoothedGesture := voteWinner hist2
  let maxCount := voteCount hist2
  if !inp.handsDetected then
    ({ s with gestureStatus := .IDLE, gestureHistory := [],
              lastConfirmedGesture := none }, none)
  else if smoothedGesture ≠ "None" ∧ CONFIRMATION_THRESHOLD ≤ maxCount then
    if some smoothedGesture ≠ s.lastConfirmedGesture then
      if COOLDOWN_MS < inp.now - s.gestureCooldown ∨
          s.lastConfirmedGesture = none then
        ({ s with gestureHistory := hist2, gestureStatus := .CONFIRMED,
                  lastConfirmedGesture := some smoothedGesture,
                  gestureCooldown := inp.now },
         some (inp.now, smoothedGesture))
      else
        ({ s with gestureHistory := hist2 }, none)
    else
      ({ s with gestureHistory := hist2, gestureStatus := .STABLE }, none)
  else
    ({ s with gestureHistory := hist2, gestureStatus := .MOVING }, none)

/-- The state at component mount: status `IDLE` (line 129), empty history
(line 94), no confirmed gesture (line 95), cooldown ref 0 (line 96), no
previous motion frame (line 80), capture time 0 (line 81), motion flag
false (line 82), stability timer 0 (line 83), not processing (line 104),
default stability threshold 1000 ms (line 135). -/
def initialState : MachineState where
  gestureStatus := .IDLE
  gestureHistory := []
  lastConfirmedGesture := none
  gestureCooldown := 0
  previousFrame := none
  lastCaptureTime := 0
  isMotionDetected := false
  stabilityTimer := 0
  isProcessing := false
  stabilityThreshold := 1000
  isActive := true

/-- Run a sequence of local frames through the segmentation machine. -/
def localRun (s : MachineState) (inputs : List LocalInput) : MachineState :=
  inputs.foldl (fun st i => (processLocalFrame st i).1) s

/-- The state just before the `k`-th frame of a run from `initialState`. -/
def stateAt (inputs : List LocalInput) (k : Nat) : MachineState :=
  localRun initialState (inputs.take k)

/-- Placeholder input, used only out of range by `emitAt`. -/
def dfltInput : LocalInput := ⟨false, "None", 0, 0⟩

/-- The event (if any) emitted by the `k`-th frame of a run from
`initialState`. -/
def emitAt (inputs : List LocalInput) (k : Nat) : Option GEvent :=
  (processLocalFrame (stateAt inputs k) (inputs.getD k dfltInput)).2

/-! ## Geometric gesture classifier (lines 57-67 and 359-402)

Landmark coordinates are the tracker's normalized floats; we model them as
rationals.  The source's `calcDistance` (line 58) takes `Math.sqrt` of the
sum of squares, and every use of it is a comparison of two distances or of
a distance against a nonnegative constant; since the square root is
strictly monotone on nonnegatives, we embed the comparisons via squared
distances to stay computable.  The bridging lemma
`isFingerCurled_iff_sqrt_dist_lt` below relates the embedded comparison to
the source's genuine Euclidean distances. -/

/-- A 2D landmark point (the classifier only reads `.x` and `.y`). -/
structure Point where
  x : ℚ
  y : ℚ
deriving DecidableEq, Repr

/-- A `LandmarkSet`: 21 points indexed by anatomical joint id. -/
def Hand := Fin 21 → Point

/-- Squared Euclidean distance; `calcDistance` of the source is its square
root (see the section comment). -/
def calcDistanceSq (p1 p2 : Point) : ℚ :=
  (p1.x - p2.x) ^ 2 + (p1.y - p2.y) ^ 2

/-- `isFingerCurled` (lines 63-67): the tip is closer to the wrist than
the base (PIP) joint.  Distance comparison taken on squares. -/
def isFingerCurled (landmarks : Hand) (tipIdx pipIdx : Fin 21)
    (wrist : Point) : Bool :=
  decide (calcDistanceSq (landmarks tipIdx) wrist <
    calcDistanceSq (landmarks pipIdx) wrist)

/-- `detectCustomGestures` (lines 359-402).  The pinch threshold `0.06`
and the pointing deadband `0.1` of the source become `6/100` and `1/10`;
the pinch comparison `pinchDist < 0.06` becomes
`pinchDistSq < (6/100)^2` (both sides nonnegative). -/
def detectCustomGestures (landmarks : Hand) : Option String :=
  let wrist := landmarks 0
  let thumbOpen := !isFingerCurled landmarks 4 3 wrist
  let indexOpen := !isFingerCurled landmarks 8 7 wrist
  let middleOpen := !isFingerCurled landmarks 12 11 wrist
  let ringOpen := !isFingerCurled landmarks 16 15 wrist
  let pinkyOpen := !isFingerCurled landmarks 20 19 wrist
  -- CALL ME: thumb and pinky open, others closed
  if thumbOpen && pinkyOpen && !indexOpen && !middleOpen && !ringOpen then
    some "Call_Me"
  -- ROCK ON: index and pinky open, others closed
  -- (source comment: "Thumb can be open or closed, usually closed")
  else if indexOpen && pinkyOpen && !middleOpen && !ringOpen then
    some "Rock_On"
  else
    -- OKAY: thumb tip and index tip are close, others open
    let thumbTip := landmarks 4
    let indexTip := landmarks 8
    let pinchDistSq := calcDistanceSq thumbTip indexTip
    if decide (pinchDistSq < (6 / 100 : ℚ) ^ 2) && middleOpen && ringOpen &&
        pinkyOpen then
      some "Super"
    -- POINTING: only index open
    else if indexOpen && !middleOpen && !ringOpen && !pinkyOpen then
      let idxTip := landmarks 8
      let idxMcp := landmarks 5
      if decide (idxTip.x < idxMcp.x - 1 / 10) then some "Point_Left"
      else if decide (idxTip.x > idxMcp.x + 1 / 10) then some "Point_Right"
      else none
    else none

/-! ## Motion-gated capture trigger (lines 632-679) -/

/-- Input of one `processCloudMotion` call: the 64x48 RGBA byte buffer of
the downsampled frame (`getImageData(...).data`, one `Int` per byte) and
the `Date.now()` reading. -/
structure CloudInput where
  frame : List Int
  now : Int
deriving DecidableEq, Repr

/-- The strided difference metric of lines 650-653: iterate the buffer
with stride 16 and count positions whose absolute delta exceeds 30. -/
def diffCount (cur prev : List Int) : Nat :=
  ((List.range cur.length).filter fun i =>
    i % 16 == 0 && decide (30 < (cur.getD i 0 - prev.getD i 0).natAbs)).length

/-- `processCloudMotion` (lines 632-679) as a pure step; the returned
`Bool` records whether a `CaptureEvent` fired (i.e. `captureAndAnalyze`
was invoked, line 664).  A fired capture also sets the processing flag,
which is the first thing the synchronously-invoked `captureAndAnalyze`
does (line 683).  When no previous frame exists, only the rolling
reference is stored (lines 649, 678). -/
def processCloudMotion (s : MachineState) (inp : CloudInput) :
    MachineState × Bool :=
  match s.previousFrame with
  | none => ({ s with previousFrame := some inp.frame }, false)
  | some prev =>
    let diff := diffCount inp.frame prev
    if diff > 5 then -- Moving
      ({ s with isMotionDetected := true, gestureStatus := .MOVING,
                stabilityTimer := inp.now,
                previousFrame := some inp.frame }, false)
    else -- Stable
      let stableDuration := inp.now - s.stabilityTimer
      if s.isMotionDetected = true ∧ stableDuration > s.stabilityThreshold then
        if s.isProcessing = false ∧ inp.now - s.lastCaptureTime > 3000 then
          -- Trigger capture
          ({ s with isProcessing := true, lastCaptureTime := inp.now,
                    isMotionDetected := false, gestureStatus := .CAPTURING,
                    previousFrame := some inp.frame }, true)
        else
          ({ s with gestureStatus := .STABLE,
                    previousFrame := some inp.frame }, false)
      else if s.isMotionDetected = false then
        ({ s with gestureStatus := .IDLE,
                  previousFrame := some inp.frame }, false)
      else
        ({ s with previousFrame := some inp.frame }, false)

/-- The `finally` block of `captureAndAnalyze` (lines 728-731): whether
the async analysis call resolves (`success = true`) or rejects, the
processing flag is cleared and the status returns to `IDLE`. -/
def captureSettle (s : MachineState) (_success : Bool) : MachineState :=
  { s with isProcessing := false, gestureStatus := .IDLE }

/-- One event of a cloud-mode run: either a processed frame or the
settling of an outstanding analysis call. -/
inductive CloudEvent where
  | frame (inp : CloudInput)
  | settle (success : Bool)
deriving DecidableEq, Repr

/-- Dispatch one cloud-mode event. -/
def cloudStep (s : MachineState) : CloudEvent → MachineState × Bool
  | .frame inp => processCloudMotion s inp
  | .settle b => (captureSettle s b, false)

/-- Run a sequence of cloud-mode events. -/
def cloudRun (s : MachineState) (evs : List CloudEvent) : MachineState :=
  evs.foldl (fun st e => (cloudStep st e).1) s

/-- The state just before the `k`-th event of a cloud run from `s0`. -/
def cloudStateAt (s0 : MachineState) (evs : List CloudEvent) (k : Nat) :
    MachineState :=
  cloudRun s0 (evs.take k)

/-- Whether the `k`-th event of a cloud run from `s0` fires a capture. -/
def firedAt (s0 : MachineState) (evs : List CloudEvent) (k : Nat) : Bool :=
  (cloudStep (cloudStateAt s0 evs k) (evs.getD k (.settle true))).2

/-! ## Mode switch and session stop (lines 280-291 and 307-322) -/

/-- The mode-switch effect (lines 307-322): reset the status to `IDLE`
(and the result text), clear the last confirmed gesture and the history.
The `autoCapture` toggling of lines 317-321 is UI-only and omitted.  Note
which fields it does NOT touch. -/
def modeSwitchReset (s : MachineState) : MachineState :=
  { s with gestureStatus := .IDLE, lastConfirmedGesture := none,
           gestureHistory := [] }

/-- `stopCamera` (lines 280-291): cancel the animation frame, stop the
media tracks, detach the video and clear `isActive`; it touches none of
the pipeline refs. -/
def stopCamera (s : MachineState) : MachineState :=
  { s with isActive := false }

/-! ## Concrete traces and hands used by counterexamples and witnesses -/

/-- Five frames of "A" (confirming it at t = 4), one frame with the hand
lost, then five more frames of "A": the second confirmation of "A" fires
at t = 10, with no intervening different label and a gap far below
`COOLDOWN_MS`, because hand loss cleared the last-confirmed memory but
not the cooldown clock. -/
def handLossTrace : List LocalInput :=
  [⟨true, "A", 1, 0⟩, ⟨true, "A", 1, 1⟩, ⟨true, "A", 1, 2⟩, ⟨true, "A", 1, 3⟩,
   ⟨true, "A", 1, 4⟩, ⟨false, "None", 1, 5⟩, ⟨true, "A", 1, 6⟩,
   ⟨true, "A", 1, 7⟩, ⟨true, "A", 1, 8⟩, ⟨true, "A", 1, 9⟩,
   ⟨true, "A", 1, 10⟩]

/-- Five frames of "A" (confirming it at t = 400) followed by four frames
of "B": after the ninth frame the machine is in `MOVING` with
`lastConfirmedGesture = some "A"` and cooldown reference 400. -/
def cooldownTrace : List LocalInput :=
  [⟨true, "A", 1, 0⟩, ⟨true, "A", 1, 100⟩, ⟨true, "A", 1, 200⟩,
   ⟨true, "A", 1, 300⟩, ⟨true, "A", 1, 400⟩, ⟨true, "B", 1, 500⟩,
   ⟨true, "B", 1, 600⟩, ⟨true, "B", 1, 700⟩, ⟨true, "B", 1, 800⟩]

/-- A hand with thumb, index and pinky open and middle and ring curled;
`detectCustomGestures` returns `Rock_On` for it even though the thumb is
open. -/
def rockOnThumbHand : Hand := fun i =>
  match i.val with
  | 4 => ⟨1, 1⟩            -- thumb tip, farther from wrist than
  | 3 => ⟨1 / 2, 1 / 2⟩    -- thumb pip: thumb open
  | 8 => ⟨0, 1⟩            -- index tip, farther than
  | 7 => ⟨0, 1 / 2⟩        -- index pip: index open
  | 12 => ⟨1 / 10, 0⟩      -- middle tip, closer than
  | 11 => ⟨1 / 2, 0⟩       -- middle pip: middle curled
  | 16 => ⟨0, 1 / 10⟩      -- ring tip, closer than
  | 15 => ⟨0, 1 / 2⟩       -- ring pip: ring curled
  | 20 => ⟨1 / 2, 1 / 2⟩   -- pinky tip, farther than
  | 19 => ⟨1 / 4, 1 / 4⟩   -- pinky pip: pinky open
  | _ => ⟨0, 0⟩            -- wrist and remaining joints

/-- A hand with index and pinky open and thumb, middle and ring curled:
the canonical rock-on shape. -/
def rockOnHand : Hand := fun i =>
  match i.val with
  | 4 => ⟨1 / 10, 0⟩       -- thumb tip, closer than
  | 3 => ⟨1 / 2, 0⟩        -- thumb pip: thumb curled
  | 8 => ⟨0, 1⟩            -- index tip, farther than
  | 7 => ⟨0, 1 / 2⟩        -- index pip: index open
  | 12 => ⟨1 / 10, 0⟩      -- middle tip, closer than
  | 11 => ⟨1 / 2, 0⟩       -- middle pip: middle curled
  | 16 => ⟨0, 1 / 10⟩      -- ring tip, closer than
  | 15 => ⟨0, 1 / 2⟩       -- ring pip: ring curled
  | 20 => ⟨1 / 2, 1 / 2⟩   -- pinky tip, farther than
  | 19 => ⟨1 / 4, 1 / 4⟩   -- pinky pip: pinky open
  | _ => ⟨0, 0⟩            -- wrist and remaining joints

/-- A hand with thumb and pinky curled and index, middle and ring open:
the curl-polarity test shape of the spec's testable properties. -/
def curledThumbPinkyHand : Hand := fun i =>
  match i.val with
  | 4 => ⟨1 / 10, 0⟩       -- thumb tip, closer than
  | 3 => ⟨1 / 2, 0⟩        -- thumb pip: thumb curled
  | 8 => ⟨0, 1⟩            -- index tip, farther than
  | 7 => ⟨0, 1 / 2⟩        -- index pip: index open
  | 12 => ⟨1, 1⟩           -- middle tip, farther than
  | 11 => ⟨1 / 2, 1 / 2⟩   -- middle pip: middle open
  | 16 => ⟨0, 9 / 10⟩      -- ring tip, farther than
  | 15 => ⟨0, 1 / 2⟩       -- ring pip: ring open
  | 20 => ⟨1 / 10, 1 / 10⟩ -- pinky tip, closer than
  | 19 => ⟨1 / 2, 1 / 4⟩   -- pinky pip: pinky curled
  | _ => ⟨0, 0⟩            -- wrist and remaining joints

/-- A stale pipeline state: mid-session cloud state with a rolling motion
reference, a pending motion flag, and local-path history. -/
def staleState : MachineState :=
  { gestureStatus := .MOVING
    gestureHistory := [⟨"A", 1⟩]
    lastConfirmedGesture := some "A"
    gestureCooldown := 500
    previousFrame := some [255, 0, 0, 255]
    lastCaptureTime := 400
    isMotionDetected := true
    stabilityTimer := 700
    isProcessing := false
    stabilityThreshold := 1000
    isActive := true }

/-- A frame buffer of 96 bytes all equal to 100: against a zero reference
buffer, every strided position (0, 16, ..., 80) differs by more than 30,
giving a difference count of 6. -/
def brightFrame : List Int := List.replicate 96 100

/-- The all-zero 96-byte frame buffer. -/
def darkFrame : List Int := List.replicate 96 0

/-- A cloud-mode starting state: a zero reference frame already stored,
no motion yet, default threshold. -/
def cloudStart : MachineState :=
  { initialState with previousFrame := some darkFrame }

/-- A cloud-mode event trace: motion (diff 6 against the dark reference)
at t = 100000, a zero-diff repeat of the bright frame at t = 101200
firing the first capture, the analysis settling, motion again (dark
frame, diff 6 against the bright reference) at t = 101500, a zero-diff
dark frame at t = 102600 suppressed by the 3000 ms rate limit, and a
zero-diff dark frame at t = 104300 firing the second capture 3100 ms
after the first. -/
def cloudTrace : List CloudEvent :=
  [.frame ⟨brightFrame, 100000⟩, .frame ⟨brightFrame, 101200⟩, .settle true,
   .frame ⟨darkFrame, 101500⟩, .frame ⟨darkFrame, 102600⟩,
   .frame ⟨darkFrame, 104300⟩]

/-! ## Reachability invariant of the segmentation machine -/

/-- Invariant of local-path runs: the window is bounded; `CAPTURING` is a
cloud-path status; in `IDLE` everything is forgotten; and in `STABLE` or
`CONFIRMED` the current window's vote is exactly the last confirmed label
with at least threshold many votes. -/
def SegInv (s : MachineState) : Prop :=
  s.gestureHistory.length ≤ HISTORY_SIZE ∧
  s.gestureStatus ≠ .CAPTURING ∧
  (s.gestureStatus = .IDLE →
    s.gestureHistory = [] ∧ s.lastConfirmedGesture = none) ∧
  ((s.gestureStatus = .STABLE ∨ s.gestureStatus = .CONFIRMED) →
    ∃ a, s.lastConfirmedGesture = some a ∧
      voteWinner s.gestureHistory = a ∧
      CONFIRMATION_THRESHOLD ≤ voteCount s.gestureHistory)

/-- First-occurrence (insertion-order) list of elements, mirroring JS
object key order for non-numeric string keys. -/
def firstSeenL (l : List String) : List String :=
  l.foldl (fun acc c => if c ∈ acc then acc else acc ++ [c]) []

/-!
# Theorems

First the voting-window infrastructure, then the per-claim theorems.
-/

lemma firstSeenL_append (l : List String) (c : String) :
    firstSeenL (l ++ [c]) =
      if c ∈ firstSeenL l then firstSeenL l else firstSeenL l ++ [c] := by
  unfold firstSeenL
  rw [List.foldl_append]
  rfl

lemma firstSeenL_mem {a : String} : ∀ {l : List String},
    a ∈ firstSeenL l ↔ a ∈ l := by
  intro l
  induction l using List.reverseRecOn with
  | nil => simp [firstSeenL]
  | append_singleton l c ih =>
    rw [firstSeenL_append]
    split_ifs with h
    · simp only [List.mem_append, List.mem_singleton, ih]
      constructor
      · exact Or.inl
      · rintro (h' | rfl)
        · exact h'
        · exact ih.mp h
    · simp [ih]

lemma firstSeenL_nodup : ∀ (l : List String), (firstSeenL l).Nodup := by
  intro l
  induction l using List.reverseRecOn with
  | nil => simp [firstSeenL]
  | append_singleton l c ih =>
    rw [firstSeenL_append]
    split_ifs with h
    · exact ih
    · simpa [List.nodup_append, h] using ih

lemma tallyVotes_append (h : List Obs) (o : Obs) :
    tallyVotes (h ++ [o]) = tallyInsert (tallyVotes h) o.category := by
  unfold tallyVotes
  rw [List.foldl_append]
  rfl

lemma tallyInsert_keys : ∀ (m : List (String × Nat)) (c : String),
    (tallyInsert m c).map Prod.fst =
      if c ∈ m.map Prod.fst then m.map Prod.fst
      else m.map Prod.fst ++ [c] := by
  intro m c
  induction m with
  | nil => simp [tallyInsert]
  | cons p rest ih =>
    obtain ⟨k, n⟩ := p
    by_cases hk : k = c
    · subst hk
      simp [tallyInsert]
    · simp only [tallyInsert, if_neg hk, List.map_cons, List.mem_cons, ih]
      have hck : ¬c = k := fun h => hk h.symm
      split_ifs with h1 h2 h2 <;> simp_all

lemma tallyVotes_keys : ∀ (h : List Obs),
    (tallyVotes h).map Prod.fst = firstSeenL (h.map Obs.category) := by
  intro h
  induction h using List.reverseRecOn with
  | nil => simp [tallyVotes, firstSeenL]
  | append_singleton h o ih =>
    have hmap : (h ++ [o]).map Obs.category =
        h.map Obs.category ++ [o.category] := by simp
    rw [tallyVotes_append, tallyInsert_keys, ih, hmap, firstSeenL_append]

lemma tallyInsert_mem_spec : ∀ (m : List (String × Nat)) (c : String)
    (p : String × Nat), (m.map Prod.fst).Nodup → p ∈ tallyInsert m c →
    (p.1 ≠ c ∧ p ∈ m) ∨
      (p.1 = c ∧ ((c ∉ m.map Prod.fst ∧ p.2 = 1) ∨
        ∃ n, (c, n) ∈ m ∧ p.2 = n + 1)) := by
  intro m c
  induction m with
  | nil =>
    intro p _ hp
    simp only [tallyInsert, List.mem_singleton] at hp
    subst hp
    exact Or.inr ⟨rfl, Or.inl ⟨by simp, rfl⟩⟩
  | cons q rest ih =>
    obtain ⟨k, n⟩ := q
    intro p hnd hp
    simp only [List.map_cons, List.nodup_cons] at hnd
    by_cases hk : k = c
    · subst hk
      simp only [tallyInsert, eq_self_iff_true, if_true, List.mem_cons] at hp
      rcases hp with heq | hp
      · subst heq
        exact Or.inr ⟨rfl, Or.inr ⟨n, List.mem_cons_self _ _, rfl⟩⟩
      · left
        refine ⟨fun hpc => ?_, List.mem_cons_of_mem _ hp⟩
        apply hnd.1
        rw [← hpc]
        exact List.mem_map_of_mem _ hp
    · simp only [tallyInsert, if_neg hk, List.mem_cons] at hp
      rcases hp with heq | hp
      · subst heq
        exact Or.inl ⟨fun h => hk h, List.mem_cons_self _ _⟩
      · rcases ih p hnd.2 hp with ⟨hne, hmem⟩ | ⟨heq, hrest⟩
        · exact Or.inl ⟨hne, List.mem_cons_of_mem _ hmem⟩
        · refine Or.inr ⟨heq, ?_⟩
          rcases hrest with ⟨hnot, h1⟩ | ⟨n', hn', h1⟩
          · refine Or.inl ⟨?_, h1⟩
            simp only [List.map_cons, List.mem_cons]
            push_neg
            exact ⟨fun h => hk h.symm, hnot⟩
          · exact Or.inr ⟨n', List.mem_cons_of_mem _ hn', h1⟩

lemma tallyVotes_count : ∀ (h : List Obs) (p : String × Nat),
    p ∈ tallyVotes h → p.2 = countCat h p.1 := by
  intro h
  induction h using List.reverseRecOn with
  | nil => simp [tallyVotes]
  | append_singleton h o ih =>
    intro p hp
    rw [tallyVotes_append] at hp
    have hnd : ((tallyVotes h).map Prod.fst).Nodup := by
      rw [tallyVotes_keys]; exact firstSeenL_nodup _
    have hcount : ∀ c, countCat (h ++ [o]) c =
        countCat h c + if o.category = c then 1 else 0 := by
      intro c
      simp [countCat, List.count_append, List.count_cons]
    rcases tallyInsert_mem_spec _ _ _ hnd hp with ⟨hne, hmem⟩ | ⟨heq, hrest⟩
    · rw [hcount, if_neg (fun h' => hne h'.symm), Nat.add_zero]
      exact ih p hmem
    · rcases hrest with ⟨hnot, h1⟩ | ⟨n', hn', h1⟩
      · have hzero : countCat h p.1 = 0 := by
          rw [heq]
          apply List.count_eq_zero.mpr
          intro hmem'
          exact hnot (by rw [tallyVotes_keys]; exact firstSeenL_mem.mpr hmem')
        rw [hcount, hzero, heq, if_pos rfl, h1]
      · have := ih _ hn'
        simp only at this
        rw [hcount, heq, if_pos rfl, h1, this]

lemma tallyVotes_mem_of_mem (h : List Obs) (c : String)
    (hc : c ∈ h.map Obs.category) : (c, countCat h c) ∈ tallyVotes h := by
  have : c ∈ (tallyVotes h).map Prod.fst := by
    rw [tallyVotes_keys]; exact firstSeenL_mem.mpr hc
  obtain ⟨⟨p1, p2⟩, hp, hpc⟩ := List.mem_map.mp this
  have hcnt := tallyVotes_count h _ hp
  simp only at hpc hcnt
  subst hpc
  rw [← hcnt]
  exact hp

lemma voteFold_snd_le : ∀ (l : List (String × Nat)) (acc : String × Nat),
    acc.2 ≤ (List.foldl findWinnerF acc l).2 := by
  intro l
  induction l with
  | nil => intro acc; exact Nat.le_refl _
  | cons p rest ih =>
    intro acc
    have h1 : acc.2 ≤ (findWinnerF acc p).2 := by
      unfold findWinnerF
      split_ifs with h
      · exact Nat.le_of_lt h
      · exact Nat.le_refl _
    exact Nat.le_trans h1 (ih (findWinnerF acc p))

lemma voteFold_mem_le : ∀ (l : List (String × Nat)) (acc p : String × Nat),
    p ∈ l → p.2 ≤ (List.foldl findWinnerF acc l).2 := by
  intro l
  induction l with
  | nil => intro acc p hp; exact absurd hp (List.not_mem_nil p)
  | cons q rest ih =>
    intro acc p hp
    rcases List.mem_cons.mp hp with rfl | hp
    · have h1 : p.2 ≤ (findWinnerF acc p).2 := by
        unfold findWinnerF
        split_ifs with h
        · exact Nat.le_refl _
        · exact Nat.le_of_not_lt h
      exact Nat.le_trans h1 (voteFold_snd_le rest _)
    · exact ih _ p hp

lemma voteFold_eq_or_mem : ∀ (l : List (String × Nat)) (acc : String × Nat),
    List.foldl findWinnerF acc l = acc ∨ List.foldl findWinnerF acc l ∈ l := by
  intro l
  induction l with
  | nil => intro acc; exact Or.inl rfl
  | cons q rest ih =>
    intro acc
    rw [List.foldl_cons]
    by_cases hq : q.2 > acc.2
    · have hf : findWinnerF acc q = q := by unfold findWinnerF; rw [if_pos hq]
      rw [hf]
      rcases ih q with h | h
      · exact Or.inr (by rw [h]; exact List.mem_cons_self _ _)
      · exact Or.inr (List.mem_cons_of_mem _ h)
    · have hf : findWinnerF acc q = acc := by unfold findWinnerF; rw [if_neg hq]
      rw [hf]
      rcases ih acc with h | h
      · exact Or.inl h
      · exact Or.inr (List.mem_cons_of_mem _ h)

lemma voteFold_stay : ∀ (l : List (String × Nat)) (acc : String × Nat),
    (List.foldl findWinnerF acc l).2 = acc.2 →
    List.foldl findWinnerF acc l = acc := by
  intro l
  induction l with
  | nil => intro acc _; rfl
  | cons q rest ih =>
    intro acc hsnd
    by_cases hq : q.2 > acc.2
    · exfalso
      have hf : findWinnerF acc q = q := by unfold findWinnerF; rw [if_pos hq]
      have := voteFold_snd_le rest (findWinnerF acc q)
      rw [hf] at this
      rw [List.foldl_cons, hf] at hsnd
      omega
    · have hf : findWinnerF acc q = acc := by unfold findWinnerF; rw [if_neg hq]
      rw [List.foldl_cons, hf] at hsnd ⊢
      exact ih acc hsnd

lemma voteFold_first : ∀ (l : List (String × Nat)) (acc : String × Nat),
    acc.2 < (List.foldl findWinnerF acc l).2 →
    ∃ pre post, l = pre ++ List.foldl findWinnerF acc l :: post ∧
      ∀ p ∈ pre, p.2 < (List.foldl findWinnerF acc l).2 := by
  intro l
  induction l with
  | nil => intro acc h; exact absurd h (Nat.lt_irrefl _)
  | cons q rest ih =>
    intro acc hlt
    by_cases hq : q.2 > acc.2
    · have hf : findWinnerF acc q = q := by unfold findWinnerF; rw [if_pos hq]
      rw [List.foldl_cons, hf] at hlt ⊢
      by_cases hr : (List.foldl findWinnerF q rest).2 = q.2
      · have hstay := voteFold_stay rest q hr
        rw [hstay]
        exact ⟨[], rest, rfl, by simp⟩
      · have hq2 : q.2 < (List.foldl findWinnerF q rest).2 :=
          Nat.lt_of_le_of_ne (voteFold_snd_le rest q) (fun h => hr h.symm)
        obtain ⟨pre, post, hsplit, hpre⟩ := ih q hq2
        refine ⟨q :: pre, post, ?_, ?_⟩
        · rw [List.cons_append]
          exact congrArg (List.cons q) hsplit
        · intro p hp
          rcases List.mem_cons.mp hp with rfl | hp
          · exact hq2
          · exact hpre p hp
    · have hf : findWinnerF acc q = acc := by unfold findWinnerF; rw [if_neg hq]
      rw [List.foldl_cons, hf] at hlt ⊢
      obtain ⟨pre, post, hsplit, hpre⟩ := ih acc hlt
      refine ⟨q :: pre, post, ?_, ?_⟩
      · rw [List.cons_append]
        exact congrArg (List.cons q) hsplit
      · intro p hp
        rcases List.mem_cons.mp hp with rfl | hp
        · exact Nat.lt_of_le_of_lt (Nat.le_of_not_lt hq) hlt
        · exact hpre p hp

lemma count_le_voteCount (h : List Obs) (c : String) :
    countCat h c ≤ voteCount h := by
  by_cases hc : c ∈ h.map Obs.category
  · exact voteFold_mem_le _ _ _ (tallyVotes_mem_of_mem h c hc)
  · have : countCat h c = 0 := List.count_eq_zero.mpr hc
    rw [this]
    exact Nat.zero_le _

lemma voteCount_eq_count (h : List Obs) :
    countCat h (voteWinner h) = voteCount h := by
  rcases voteFold_eq_or_mem (tallyVotes h) ("None", 0) with heq | hmem
  · have h1 : voteWinner h = "None" := by
      unfold voteWinner findWinner
      rw [heq]
    have h2 : voteCount h = 0 := by
      unfold voteCount findWinner
      rw [heq]
    rw [h1, h2]
    by_contra hne
    have hpos : 0 < countCat h "None" := Nat.pos_of_ne_zero hne
    have hmem' : "None" ∈ h.map Obs.category := List.count_pos_iff.mp hpos
    have := voteFold_mem_le (tallyVotes h) ("None", 0) _
      (tallyVotes_mem_of_mem h "None" hmem')
    unfold voteCount findWinner at h2
    omega
  · have := tallyVotes_count h _ hmem
    unfold voteWinner voteCount findWinner at *
    omega

lemma count_pair_le_length (l : List String) (a b : String) (hab : a ≠ b) :
    l.count a + l.count b ≤ l.length := by
  induction l with
  | nil => simp
  | cons x rest ih =>
    simp only [List.count_cons, List.length_cons, beq_iff_eq]
    by_cases hxa : x = a <;> by_cases hxb : x = b
    · exact absurd (hxa.symm.trans hxb) hab
    · rw [if_pos hxa, if_neg hxb]; omega
    · rw [if_neg hxa, if_pos hxb]; omega
    · rw [if_neg hxa, if_neg hxb]; omega

lemma runWindow_append (obs : List Obs) (o : Obs) :
    runWindow (obs ++ [o]) = pushObservation (runWindow obs) o := by
  unfold runWindow
  rw [List.foldl_append]
  rfl

lemma runWindow_eq_drop : ∀ (obs : List Obs),
    runWindow obs = obs.drop (obs.length - HISTORY_SIZE) := by
  intro obs
  induction obs using List.reverseRecOn with
  | nil => rfl
  | append_singleton obs o ih =>
    rw [runWindow_append, ih]
    unfold pushObservation HISTORY_SIZE
    simp only [List.length_append, List.length_drop, List.length_singleton]
    by_cases h8 : obs.length + 1 ≤ 8
    · rw [if_neg (by omega)]
      have h0 : obs.length - 8 = 0 := by omega
      have h0' : obs.length + 1 - 8 = 0 := by omega
      rw [h0, h0', List.drop_zero, List.drop_zero]
    · rw [if_pos (by omega)]
      rw [← List.drop_append_of_le_length (by omega), List.tail_drop]
      congr 1
      omega

lemma runWindow_length_le (obs : List Obs) :
    (runWindow obs).length ≤ HISTORY_SIZE := by
  rw [runWindow_eq_drop, List.length_drop]
  unfold HISTORY_SIZE
  omega

lemma tallyVotes_replicate : ∀ (k : Nat) (o : Obs),
    tallyVotes (List.replicate (k + 1) o) = [(o.category, k + 1)] := by
  intro k o
  induction k with
  | zero => rfl
  | succ k ih =>
    rw [List.replicate_succ' (k + 1), tallyVotes_append, ih]
    simp [tallyInsert]

lemma findWinner_replicate (k : Nat) (o : Obs) :
    findWinner (List.replicate (k + 1) o) = (o.category, k + 1) := by
  unfold findWinner
  rw [tallyVotes_replicate]
  simp [findWinnerF]

/-- C3: the voting window keeps at most the `HISTORY_SIZE = 8` most
recent observations, with the oldest evicted: after any observation
sequence the window is exactly the final stretch of the last 8 arrivals
in arrival order; the vote result is the most frequent category of the
current window together with its frequency (no category beats the
returned count, and the winner attains it); a constant label fed for
`n ≥ 8` frames wins with count 8; and 5 frames of "A" followed by
3 frames of "B" into an empty window yield winner "A" with count 5,
meeting the confirmation threshold. -/
theorem C3_voting_window_spec :
    (∀ obs : List Obs, (runWindow obs).length ≤ HISTORY_SIZE ∧
      runWindow obs = obs.drop (obs.length - HISTORY_SIZE)) ∧
    (∀ (h : List Obs) (c : String), countCat h c ≤ voteCount h) ∧
    (∀ h : List Obs, countCat h (voteWinner h) = voteCount h) ∧
    (∀ (L : String) (sc : ℚ) (n : Nat), HISTORY_SIZE ≤ n →
      voteWinner (runWindow (List.replicate n ⟨L, sc⟩)) = L ∧
      voteCount (runWindow (List.replicate n ⟨L, sc⟩)) = HISTORY_SIZE) ∧
    (voteWinner (runWindow
        (List.replicate 5 ⟨"A", 1⟩ ++ List.replicate 3 ⟨"B", 1⟩)) = "A" ∧
      voteCount (runWindow
        (List.replicate 5 ⟨"A", 1⟩ ++ List.replicate 3 ⟨"B", 1⟩)) = 5 ∧
      CONFIRMATION_THRESHOLD ≤ 5) := by
  refine ⟨fun obs => ⟨runWindow_length_le obs, runWindow_eq_drop obs⟩,
    count_le_voteCount, voteCount_eq_count, ?_, by decide⟩
  intro L sc n h8
  have hrep : runWindow (List.replicate n ⟨L, sc⟩) =
      List.replicate HISTORY_SIZE (⟨L, sc⟩ : Obs) := by
    rw [runWindow_eq_drop, List.length_replicate, List.drop_replicate]
    congr 1
    unfold HISTORY_SIZE at h8 ⊢
    omega
  rw [hrep]
  have h7 : List.replicate HISTORY_SIZE (⟨L, sc⟩ : Obs) =
      List.replicate (7 + 1) (⟨L, sc⟩ : Obs) := rfl
  rw [h7]
  constructor
  · unfold voteWinner
    rw [findWinner_replicate]
  · unfold voteCount
    rw [findWinner_replicate]
    rfl

/-- Witness for C3: ten frames of a constant label "X" yield winner "X"
with the full window count of 8. -/
theorem C3_voting_window_spec_witness :
    voteWinner (runWindow (List.replicate 10 ⟨"X", 1⟩)) = "X" ∧
    voteCount (runWindow (List.replicate 10 ⟨"X", 1⟩)) = HISTORY_SIZE :=
  C3_voting_window_spec.2.2.2.1 "X" 1 10 (by decide)

/-- C4: when two or more categories are tied at the maximal frequency of
the window, the winner is the tied category encountered first in tally
iteration order — the first-occurrence order of `Object.entries` on the
`counts` object: every category listed before the winner in first-seen
order has a strictly smaller count, and the winner attains the maximal
count. -/
theorem C4_tie_break_first_seen (h : List Obs) (a b : String)
    (hab : a ≠ b) (ha : countCat h a = voteCount h)
    (hb : countCat h b = voteCount h) (hpos : 0 < countCat h a) :
    ∃ pre post, firstSeenL (h.map Obs.category) =
        pre ++ voteWinner h :: post ∧
      (∀ c ∈ pre, countCat h c < voteCount h) ∧
      countCat h (voteWinner h) = voteCount h := by
  have hlt : ((("None", 0) : String × Nat)).2 <
      (List.foldl findWinnerF ("None", 0) (tallyVotes h)).2 := by
    have : (List.foldl findWinnerF ("None", 0) (tallyVotes h)).2 =
        voteCount h := rfl
    rw [this]
    omega
  obtain ⟨pre, post, hsplit, hpre⟩ := voteFold_first (tallyVotes h) _ hlt
  refine ⟨pre.map Prod.fst, post.map Prod.fst, ?_, ?_, voteCount_eq_count h⟩
  · rw [← tallyVotes_keys, hsplit, List.map_append, List.map_cons]
    rfl
  · intro c hc
    obtain ⟨p, hp, hpc⟩ := List.mem_map.mp hc
    have hmem : p ∈ tallyVotes h := by
      rw [hsplit]
      exact List.mem_append_left _ hp
    have := tallyVotes_count h p hmem
    rw [← hpc, ← this]
    exact hpre p hp

/-- Witness for C4: the window B, A, B, A has B and A tied at count 2 and
the vote goes to "B", the first-seen tied category. -/
theorem C4_tie_break_first_seen_witness :
    ∃ pre post,
      firstSeenL (([⟨"B", 1⟩, ⟨"A", 1⟩, ⟨"B", 1⟩, ⟨"A", 1⟩] :
          List Obs).map Obs.category) =
        pre ++ voteWinner [⟨"B", 1⟩, ⟨"A", 1⟩, ⟨"B", 1⟩, ⟨"A", 1⟩] :: post ∧
      (∀ c ∈ pre,
        countCat [⟨"B", 1⟩, ⟨"A", 1⟩, ⟨"B", 1⟩, ⟨"A", 1⟩] c <
          voteCount [⟨"B", 1⟩, ⟨"A", 1⟩, ⟨"B", 1⟩, ⟨"A", 1⟩]) ∧
      countCat [⟨"B", 1⟩, ⟨"A", 1⟩, ⟨"B", 1⟩, ⟨"A", 1⟩]
          (voteWinner [⟨"B", 1⟩, ⟨"A", 1⟩, ⟨"B", 1⟩, ⟨"A", 1⟩]) =
        voteCount [⟨"B", 1⟩, ⟨"A", 1⟩, ⟨"B", 1⟩, ⟨"A", 1⟩] :=
  C4_tie_break_first_seen _ "A" "B" (by decide) (by decide) (by decide)
    (by decide)

/-! ## Segmentation-machine invariant and cooldown behaviour -/

lemma pushObservation_length_le (h : List Obs) (o : Obs)
    (hl : h.length ≤ HISTORY_SIZE) :
    (pushObservation h o).length ≤ HISTORY_SIZE := by
  simp only [pushObservation]
  split_ifs with h1
  · rw [List.length_tail, List.length_append]
    simp only [List.length_singleton]
    omega
  · rw [List.length_append] at h1 ⊢
    simp only [List.length_singleton] at h1 ⊢
    omega

lemma countCat_tail_le (h : List Obs) (c : String) :
    countCat h.tail c ≤ countCat h c := by
  cases h with
  | nil => exact Nat.le_refl _
  | cons x t =>
    unfold countCat
    simp only [List.tail_cons, List.map_cons, List.count_cons]
    omega

lemma countCat_pushObservation_le (h : List Obs) (o : Obs) (c : String) :
    countCat (pushObservation h o) c ≤ countCat h c + 1 := by
  have happ : countCat (h ++ [o]) c ≤ countCat h c + 1 := by
    unfold countCat
    simp only [List.map_append, List.count_append, List.map_cons,
      List.map_nil, List.count_cons, List.count_nil]
    split_ifs <;> omega
  simp only [pushObservation]
  split_ifs with h1
  · exact Nat.le_trans (countCat_tail_le _ c) happ
  · exact happ

/-- The heart of the cooldown-suppression analysis: if the current window
votes for the already-confirmed label `a` with at least threshold many
votes, then after pushing one more observation no other label `b` can
reach the threshold. -/
lemma push_vote_newcomer_lt (h : List Obs) (o : Obs) (a : String)
    (hlen : h.length ≤ HISTORY_SIZE) (hwin : voteWinner h = a)
    (hcnt : CONFIRMATION_THRESHOLD ≤ voteCount h)
    (b : String) (hba : b ≠ a) :
    countCat (pushObservation h o) b < CONFIRMATION_THRESHOLD := by
  have h1 : countCat h a = voteCount h := by
    rw [← hwin]
    exact voteCount_eq_count h
  have h2 : countCat h a + countCat h b ≤ h.length := by
    have := count_pair_le_length (h.map Obs.category) a b
      (fun e => hba e.symm)
    rwa [List.length_map] at this
  have h3 := countCat_pushObservation_le h o b
  unfold CONFIRMATION_THRESHOLD at *
  unfold HISTORY_SIZE at hlen
  omega

lemma segInv_initial : SegInv initialState := by
  refine ⟨by simp [initialState, HISTORY_SIZE], by simp [initialState],
    fun _ => ⟨rfl, rfl⟩, fun hc => ?_⟩
  rcases hc with hc | hc <;> exact absurd hc (by simp [initialState])

lemma segInv_step (s : MachineState) (inp : LocalInput) (hs : SegInv s) :
    SegInv (processLocalFrame s inp).1 := by
  obtain ⟨hlen, hcap, hidle, hstab⟩ := hs
  have hpush := pushObservation_length_le s.gestureHistory
    ⟨inp.category, inp.score⟩ hlen
  simp only [processLocalFrame]
  split_ifs with h1 h2 h3 h4
  · -- no hands: reset to IDLE
    exact ⟨by simp [HISTORY_SIZE], by simp, fun _ => ⟨rfl, rfl⟩,
      fun hc => by rcases hc with hc | hc <;> exact absurd hc (by simp)⟩
  · -- confirm branch
    refine ⟨hpush, by simp, fun hc => absurd hc (by simp), fun _ => ?_⟩
    exact ⟨_, rfl, rfl, h2.2⟩
  · -- cooldown-suppressed branch: status unchanged
    have hlast : ∃ a, s.lastConfirmedGesture = some a := by
      rcases hopt : s.lastConfirmedGesture with _ | a
      · exact absurd (Or.inr hopt) h4
      · exact ⟨a, rfl⟩
    obtain ⟨a, ha⟩ := hlast
    refine ⟨hpush, hcap, fun hc => ?_, fun hc => ?_⟩
    · exact absurd ((hidle hc).2.symm.trans ha) (by simp)
    · exfalso
      obtain ⟨a', ha', hwin, hcnt⟩ := hstab hc
      have haa : a' = a := by
        rw [ha] at ha'
        exact (Option.some.inj ha').symm
      subst haa
      have hne : voteWinner (pushObservation s.gestureHistory
          ⟨inp.category, inp.score⟩) ≠ a' := by
        intro he
        apply h3
        rw [← he] at ha
        exact ha.symm
      have hlt := push_vote_newcomer_lt s.gestureHistory
        ⟨inp.category, inp.score⟩ a' hlen hwin hcnt _ hne
      have heq := voteCount_eq_count (pushObservation s.gestureHistory
        ⟨inp.category, inp.score⟩)
      have hge := h2.2
      omega
  · -- stable branch: winner equals last confirmed
    have hl : s.lastConfirmedGesture = some (voteWinner
        (pushObservation s.gestureHistory ⟨inp.category, inp.score⟩)) := by
      by_contra hne
      exact h3 (fun he => hne he.symm)
    refine ⟨hpush, by simp, fun hc => absurd hc (by simp), fun _ => ?_⟩
    refine ⟨_, hl, rfl, ?_⟩
    exact h2.2
  · -- moving branch
    exact ⟨hpush, by simp, fun hc => absurd hc (by simp),
      fun hc => by rcases hc with hc | hc <;> exact absurd hc (by simp)⟩

lemma segInv_run : ∀ (inputs : List LocalInput) (s : MachineState),
    SegInv s → SegInv (localRun s inputs) := by
  intro inputs
  induction inputs with
  | nil => intro s hs; exact hs
  | cons i rest ih =>
    intro s hs
    exact ih _ (segInv_step s i hs)

lemma segInv_stateAt (inputs : List LocalInput) (k : Nat) :
    SegInv (stateAt inputs k) :=
  segInv_run _ _ segInv_initial

/-- C2: in any run of the segmentation machine, a step with the hand
present whose vote winner differs from the last confirmed label, whose
winner count meets the confirmation threshold, with a prior confirmation
on record and less than `COOLDOWN_MS` elapsed since it, leaves the
machine in `MOVING` and emits no event.  (The source's suppressed branch
keeps the status unchanged, and on every reachable state satisfying
these premises that status is `MOVING`.) -/
theorem C2_cooldown_suppresses_to_moving (inputs : List LocalInput)
    (inp : LocalInput) (a : String)
    (hhands : inp.handsDetected = true)
    (hlast : (localRun initialState inputs).lastConfirmedGesture = some a)
    (hwin : voteWinner (pushObservation
        (localRun initialState inputs).gestureHistory
        ⟨inp.category, inp.score⟩) ≠ a)
    (hcnt : CONFIRMATION_THRESHOLD ≤ voteCount (pushObservation
        (localRun initialState inputs).gestureHistory
        ⟨inp.category, inp.score⟩))
    (hcool : inp.now - (localRun initialState inputs).gestureCooldown <
        COOLDOWN_MS) :
    (processLocalFrame (localRun initialState inputs) inp).1.gestureStatus =
        Status.MOVING ∧
    (processLocalFrame (localRun initialState inputs) inp).2 = none := by
  set s := localRun initialState inputs with hs_def
  have hinv : SegInv s := segInv_run _ _ segInv_initial
  obtain ⟨hlen, hcap, hidle, hstab⟩ := hinv
  set hist2 := pushObservation s.gestureHistory ⟨inp.category, inp.score⟩
    with hist2_def
  by_cases hnone : voteWinner hist2 = "None"
  · -- the vote winner is "None": ambiguous branch, ends in MOVING
    simp only [processLocalFrame]
    rw [if_neg (by simp [hhands]), if_neg (by
      rw [← hist2_def, hnone]
      simp)]
    exact ⟨rfl, rfl⟩
  · -- genuine suppressed branch: status is unchanged and provably MOVING
    have hmoving : s.gestureStatus = Status.MOVING := by
      rcases hstatus : s.gestureStatus with _ | _ | _ | _ | _
      · exact absurd ((hidle hstatus).2.symm.trans hlast) (by simp)
      · rfl
      · obtain ⟨a', ha', hw, hc⟩ := hstab (Or.inl hstatus)
        exfalso
        have haa : a' = a := by
          rw [hlast] at ha'
          exact (Option.some.inj ha').symm
        subst haa
        have hlt := push_vote_newcomer_lt s.gestureHistory
          ⟨inp.category, inp.score⟩ a' hlen hw hc _ hwin
        have heq := voteCount_eq_count hist2
        rw [← hist2_def] at hlt
        omega
      · exact absurd hstatus hcap
      · obtain ⟨a', ha', hw, hc⟩ := hstab (Or.inr hstatus)
        exfalso
        have haa : a' = a := by
          rw [hlast] at ha'
          exact (Option.some.inj ha').symm
        subst haa
        have hlt := push_vote_newcomer_lt s.gestureHistory
          ⟨inp.category, inp.score⟩ a' hlen hw hc _ hwin
        have heq := voteCount_eq_count hist2
        rw [← hist2_def] at hlt
        omega
    simp only [processLocalFrame]
    rw [if_neg (by simp [hhands]), if_pos (by
        rw [← hist2_def]
        exact ⟨hnone, hcnt⟩),
      if_pos (by
        rw [← hist2_def, hlast]
        intro he
        exact hwin (Option.some.inj he)),
      if_neg (by
        rw [hlast]
        push_neg
        exact ⟨by omega, by simp⟩)]
    exact ⟨hmoving, rfl⟩

/-- Witness for C2: after five frames of "A" (confirmed at t = 400) and
four frames of "B", the ninth-frame state has last confirmed "A" and is
in `MOVING`; the tenth frame "B" at t = 900 votes "B" with count 5 within
the cooldown window, and the step stays in `MOVING` with no event. -/
theorem C2_cooldown_suppresses_to_moving_witness :
    (processLocalFrame (localRun initialState cooldownTrace)
        ⟨true, "B", 1, 900⟩).1.gestureStatus = Status.MOVING ∧
    (processLocalFrame (localRun initialState cooldownTrace)
        ⟨true, "B", 1, 900⟩).2 = none :=
  C2_cooldown_suppresses_to_moving cooldownTrace ⟨true, "B", 1, 900⟩ "A"
    (by decide) (by decide) (by decide) (by decide) (by decide)

/-- C10: a segmentation step with no hand detected clears the observation
history and the last-confirmed label and sets the status to `IDLE`, emits
nothing, and leaves the cooldown timestamp (and every cloud-path ref)
unchanged: hand loss resets the label memory without resetting the
cooldown clock. -/
theorem C10_hand_loss_keeps_cooldown (s : MachineState) (inp : LocalInput)
    (hhands : inp.handsDetected = false) :
    (processLocalFrame s inp).1.gestureStatus = Status.IDLE ∧
    (processLocalFrame s inp).1.gestureHistory = [] ∧
    (processLocalFrame s inp).1.lastConfirmedGesture = none ∧
    (processLocalFrame s inp).1.gestureCooldown = s.gestureCooldown ∧
    (processLocalFrame s inp).2 = none := by
  simp only [processLocalFrame]
  rw [if_pos (by simp [hhands])]
  exact ⟨rfl, rfl, rfl, rfl, rfl⟩

/-- Witness for C10: a hand-loss frame applied to the post-confirmation
state of the cooldown trace clears label memory but keeps the cooldown
reference at 400. -/
theorem C10_hand_loss_keeps_cooldown_witness :
    (processLocalFrame (localRun initialState cooldownTrace)
        ⟨false, "None", 1, 950⟩).1.gestureStatus = Status.IDLE ∧
    (processLocalFrame (localRun initialState cooldownTrace)
        ⟨false, "None", 1, 950⟩).1.gestureHistory = [] ∧
    (processLocalFrame (localRun initialState cooldownTrace)
        ⟨false, "None", 1, 950⟩).1.lastConfirmedGesture = none ∧
    (processLocalFrame (localRun initialState cooldownTrace)
        ⟨false, "None", 1, 950⟩).1.gestureCooldown =
      (localRun initialState cooldownTrace).gestureCooldown ∧
    (processLocalFrame (localRun initialState cooldownTrace)
        ⟨false, "None", 1, 950⟩).2 = none :=
  C10_hand_loss_keeps_cooldown (localRun initialState cooldownTrace)
    ⟨false, "None", 1, 950⟩ (by decide)

/-! ## Confirmed-event emission discipline (claim C1) -/

lemma processLocalFrame_emit (s : MachineState) (inp : LocalInput)
    (t : Int) (L : String)
    (h : (processLocalFrame s inp).2 = some (t, L)) :
    inp.handsDetected = true ∧ t = inp.now ∧
    (processLocalFrame s inp).1.lastConfirmedGesture = some L ∧
    s.lastConfirmedGesture ≠ some L := by
  simp only [processLocalFrame] at h ⊢
  split_ifs at h ⊢ with h1 h2 h3 h4
  have hpair : (inp.now, voteWinner (pushObservation s.gestureHistory
      ⟨inp.category, inp.score⟩)) = (t, L) := Option.some.inj h
  have ht : inp.now = t := congrArg Prod.fst hpair
  have hL : voteWinner (pushObservation s.gestureHistory
      ⟨inp.category, inp.score⟩) = L := congrArg Prod.snd hpair
  refine ⟨?_, ht.symm, ?_, ?_⟩
  · rcases hb : inp.handsDetected with _ | _
    · exact absurd (by rw [hb]; rfl) h1
    · rfl
  · show some (voteWinner (pushObservation s.gestureHistory
      ⟨inp.category, inp.score⟩)) = some L
    rw [hL]
  · rw [← hL]
    exact fun he => h3 he.symm

lemma processLocalFrame_no_emit_keeps_last (s : MachineState)
    (inp : LocalInput) (hhands : inp.handsDetected = true)
    (h : (processLocalFrame s inp).2 = none) :
    (processLocalFrame s inp).1.lastConfirmedGesture =
      s.lastConfirmedGesture := by
  simp only [processLocalFrame] at h ⊢
  split_ifs at h ⊢ with h1 h2 h3 h4
  all_goals first
    | rfl
    | (exact absurd h1 (by rw [hhands]; decide))

lemma localRun_append (s : MachineState) (xs : List LocalInput)
    (x : LocalInput) :
    localRun s (xs ++ [x]) = (processLocalFrame (localRun s xs) x).1 := by
  unfold localRun
  rw [List.foldl_append]
  rfl

lemma stateAt_succ (inputs : List LocalInput) (k : Nat)
    (hk : k < inputs.length) :
    stateAt inputs (k + 1) =
      (processLocalFrame (stateAt inputs k) (inputs.getD k dfltInput)).1 := by
  unfold stateAt
  have htake : inputs.take (k + 1) =
      inputs.take k ++ [inputs.getD k dfltInput] := by
    rw [List.take_succ]
    congr 1
    rw [List.getElem?_eq_getElem hk]
    rw [List.getD_eq_getElem _ _ hk]
    rfl
  rw [htake, localRun_append]

/-- Between an emission of label `L` and any later point with the hand
continuously present and no differently-labelled emission, the
last-confirmed memory stays `some L`. -/
lemma lastConfirmed_stays (inputs : List LocalInput) (L : String)
    (i : Nat) (hi : i < inputs.length)
    (hemit : ∃ t, emitAt inputs i = some (t, L)) :
    ∀ j, i < j → j ≤ inputs.length →
    (∀ k, i < k → k < j → (inputs.getD k dfltInput).handsDetected = true) →
    (∀ k t' L', i < k → k < j → emitAt inputs k = some (t', L') → L' = L) →
    (stateAt inputs j).lastConfirmedGesture = some L := by
  intro j
  induction j with
  | zero => intro h; omega
  | succ j ih =>
    intro hij hjlen hhands hsame
    have hjlt : j < inputs.length := by omega
    by_cases hji : i = j
    · subst hji
      obtain ⟨t, ht⟩ := hemit
      rw [stateAt_succ inputs i hi]
      exact (processLocalFrame_emit _ _ _ _ ht).2.2.1
    · have hij' : i < j := by omega
      have hprev := ih hij' (by omega)
        (fun k hk1 hk2 => hhands k hk1 (by omega))
        (fun k t' L' hk1 hk2 he => hsame k t' L' hk1 (by omega) he)
      rw [stateAt_succ inputs j hjlt]
      rcases hstep : emitAt inputs j with _ | ev
      · rw [processLocalFrame_no_emit_keeps_last _ _
          (hhands j hij' (by omega)) hstep]
        exact hprev
      · obtain ⟨t', L'⟩ := ev
        have hL' : L' = L := hsame j t' L' hij' (by omega) hstep
        subst hL'
        exact (processLocalFrame_emit _ _ _ _ hstep).2.2.1

/-- C1 (amended): in any run of the segmentation machine, a
`ConfirmedGestureEvent` is never emitted twice for the same label unless
a different label was confirmed in between, or at least `COOLDOWN_MS`
elapsed since that label's previous confirmation, or hand presence was
lost in between (hand loss clears the last-confirmed memory, letting the
same label re-fire immediately). -/
theorem C1_no_double_emit_amended (inputs : List LocalInput)
    (i j : Nat) (t1 t2 : Int) (L : String)
    (hij : i < j) (hjlen : j < inputs.length)
    (hi : emitAt inputs i = some (t1, L))
    (hj : emitAt inputs j = some (t2, L)) :
    (∃ k t' L', i < k ∧ k < j ∧ emitAt inputs k = some (t', L') ∧
      L' ≠ L) ∨
    COOLDOWN_MS ≤ t2 - t1 ∨
    (∃ k, i < k ∧ k < j ∧
      (inputs.getD k dfltInput).handsDetected = false) := by
  by_cases hdiff : ∃ k t' L', i < k ∧ k < j ∧
      emitAt inputs k = some (t', L') ∧ L' ≠ L
  · exact Or.inl hdiff
  by_cases hloss : ∃ k, i < k ∧ k < j ∧
      (inputs.getD k dfltInput).handsDetected = false
  · exact Or.inr (Or.inr hloss)
  exfalso
  push_neg at hdiff hloss
  have hi_lt : i < inputs.length := by omega
  have hlast : (stateAt inputs j).lastConfirmedGesture = some L := by
    refine lastConfirmed_stays inputs L i hi_lt ⟨t1, hi⟩ j hij (by omega)
      (fun k hk1 hk2 => ?_)
      (fun k t' L' hk1 hk2 he => hdiff k t' L' hk1 hk2 he)
    rcases hb : (inputs.getD k dfltInput).handsDetected with _ | _
    · exact absurd hb (hloss k hk1 hk2)
    · rfl
  exact (processLocalFrame_emit _ _ _ _ hj).2.2.2 hlast

/-- Counterexample to C1 as stated: in `handLossTrace`, the label "A" is
confirmed at steps 4 (t = 4) and 10 (t = 10); the gap is 6 ms, far below
`COOLDOWN_MS`, and every intermediate step emits nothing, so no
different label was confirmed in between.  (Step 5 is the hand-loss
frame that clears the last-confirmed memory.) -/
theorem C1_counterexample :
    emitAt handLossTrace 4 = some (4, "A") ∧
    emitAt handLossTrace 10 = some (10, "A") ∧
    ¬(COOLDOWN_MS ≤ (10 : Int) - 4) ∧
    emitAt handLossTrace 5 = none ∧ emitAt handLossTrace 6 = none ∧
    emitAt handLossTrace 7 = none ∧ emitAt handLossTrace 8 = none ∧
    emitAt handLossTrace 9 = none := by
  decide

/-- Witness for the amended C1 at the hand-loss trace: the double "A"
emission is accounted for by the hand-loss disjunct. -/
theorem C1_no_double_emit_amended_witness :
    (∃ k t' L', 4 < k ∧ k < 10 ∧
      emitAt handLossTrace k = some (t', L') ∧ L' ≠ "A") ∨
    COOLDOWN_MS ≤ (10 : Int) - 4 ∨
    (∃ k, 4 < k ∧ k < 10 ∧
      (handLossTrace.getD k dfltInput).handsDetected = false) :=
  C1_no_double_emit_amended handLossTrace 4 10 4 10 "A" (by decide)
    (by decide) (by decide) (by decide)

/-! ## Motion-gated capture trigger lemmas (claims C7 and C9) -/

lemma processCloudMotion_moving (s : MachineState) (inp : CloudInput)
    (p : List Int) (hprev : s.previousFrame = some p)
    (hdiff : diffCount inp.frame p > 5) :
    processCloudMotion s inp =
      ({ s with isMotionDetected := true, gestureStatus := .MOVING,
                stabilityTimer := inp.now,
                previousFrame := some inp.frame }, false) := by
  simp only [processCloudMotion, hprev]
  rw [if_pos hdiff]

lemma processCloudMotion_capture (s : MachineState) (inp : CloudInput)
    (p : List Int) (hprev : s.previousFrame = some p)
    (hdiff : ¬diffCount inp.frame p > 5)
    (hmot : s.isMotionDetected = true)
    (hdur : inp.now - s.stabilityTimer > s.stabilityThreshold)
    (hproc : s.isProcessing = false)
    (hrate : inp.now - s.lastCaptureTime > 3000) :
    processCloudMotion s inp =
      ({ s with isProcessing := true, lastCaptureTime := inp.now,
                isMotionDetected := false, gestureStatus := .CAPTURING,
                previousFrame := some inp.frame }, true) := by
  simp only [processCloudMotion, hprev]
  rw [if_neg hdiff, if_pos ⟨hmot, hdur⟩, if_pos ⟨hproc, hrate⟩]

lemma processCloudMotion_idle (s : MachineState) (inp : CloudInput)
    (p : List Int) (hprev : s.previousFrame = some p)
    (hdiff : ¬diffCount inp.frame p > 5)
    (hmot : s.isMotionDetected = false) :
    processCloudMotion s inp =
      ({ s with gestureStatus := .IDLE,
                previousFrame := some inp.frame }, false) := by
  simp only [processCloudMotion, hprev]
  rw [if_neg hdiff, if_neg (by intro hc; rw [hmot] at hc; exact absurd hc.1 (by simp)),
    if_pos hmot]

lemma processCloudMotion_fired (s : MachineState) (inp : CloudInput)
    (h : (processCloudMotion s inp).2 = true) :
    s.isProcessing = false ∧ inp.now - s.lastCaptureTime > 3000 ∧
    (processCloudMotion s inp).1.lastCaptureTime = inp.now ∧
    (processCloudMotion s inp).1.isProcessing = true := by
  rcases hprev : s.previousFrame with _ | p
  · simp only [processCloudMotion, hprev] at h
    exact absurd h (by simp)
  · simp only [processCloudMotion, hprev] at h ⊢
    split_ifs at h ⊢ with h1 h2 h3
    exact ⟨h3.1, h3.2, rfl, rfl⟩

lemma cloudStep_not_fired_keeps_lastCapture (s : MachineState)
    (e : CloudEvent) (h : (cloudStep s e).2 = false) :
    (cloudStep s e).1.lastCaptureTime = s.lastCaptureTime := by
  cases e with
  | settle b => rfl
  | frame inp =>
    rcases hprev : s.previousFrame with _ | p
    · simp only [cloudStep, processCloudMotion, hprev]
    · simp only [cloudStep, processCloudMotion, hprev] at h ⊢
      split_ifs at h ⊢ <;> rfl

lemma cloudRun_append (s : MachineState) (xs : List CloudEvent)
    (x : CloudEvent) :
    cloudRun s (xs ++ [x]) = (cloudStep (cloudRun s xs) x).1 := by
  unfold cloudRun
  rw [List.foldl_append]
  rfl

lemma cloudStateAt_succ (s0 : MachineState) (evs : List CloudEvent)
    (k : Nat) (hk : k < evs.length) :
    cloudStateAt s0 evs (k + 1) =
      (cloudStep (cloudStateAt s0 evs k)
        (evs.getD k (.settle true))).1 := by
  unfold cloudStateAt
  have htake : evs.take (k + 1) =
      evs.take k ++ [evs.getD k (.settle true)] := by
    rw [List.take_succ]
    congr 1
    rw [List.getElem?_eq_getElem hk, List.getD_eq_getElem _ _ hk]
    rfl
  rw [htake, cloudRun_append]

/-- After a capture at event `i` (a frame with timestamp `inpi.now`),
the `lastCaptureTime` ref holds `inpi.now` until the next capture. -/
lemma lastCapture_between (s0 : MachineState) (evs : List CloudEvent)
    (i : Nat) (hi : i < evs.length) (inpi : CloudInput)
    (hei : evs.getD i (.settle true) = .frame inpi)
    (hfi : firedAt s0 evs i = true) :
    ∀ j, i < j → j ≤ evs.length →
    (∀ k, i < k → k < j → firedAt s0 evs k = false) →
    (cloudStateAt s0 evs j).lastCaptureTime = inpi.now := by
  intro j
  induction j with
  | zero => intro h; omega
  | succ j ih =>
    intro hij hjlen hnof
    have hjlt : j < evs.length := by omega
    by_cases hji : i = j
    · subst hji
      rw [cloudStateAt_succ s0 evs i hi]
      unfold firedAt at hfi
      rw [hei] at hfi ⊢
      exact (processCloudMotion_fired _ _ hfi).2.2.1
    · have hij' : i < j := by omega
      have hprev := ih hij' (by omega)
        (fun k hk1 hk2 => hnof k hk1 (by omega))
      rw [cloudStateAt_succ s0 evs j hjlt]
      have hnf : firedAt s0 evs j = false := hnof j hij' (by omega)
      unfold firedAt at hnf
      rw [cloudStep_not_fired_keeps_lastCapture _ _ hnf]
      exact hprev

/-- C7: (a) a frame whose strided pixel-difference count against the
rolling reference exceeds 5 sets the state to `MOVING`, raises the
motion flag and resets the stability timer to the frame's clock reading,
firing nothing; (b) after motion, a zero-difference (more generally,
below-threshold) frame held past `stabilityThreshold`, with no call
outstanding and the 3000 ms rate limit satisfied, fires exactly one
capture and transitions to `CAPTURING`, clearing the motion flag, and a
further zero-difference frame fires nothing and falls to `IDLE`; (c) in
any event run, two consecutive captures are always more than 3000 ms
apart. -/
theorem C7_motion_gated_capture :
    (∀ (s : MachineState) (inp : CloudInput) (p : List Int),
      s.previousFrame = some p → 5 < diffCount inp.frame p →
      (processCloudMotion s inp).1.gestureStatus = Status.MOVING ∧
      (processCloudMotion s inp).1.isMotionDetected = true ∧
      (processCloudMotion s inp).1.stabilityTimer = inp.now ∧
      (processCloudMotion s inp).2 = false) ∧
    (∀ (s : MachineState) (inp inp2 : CloudInput) (p : List Int),
      s.previousFrame = some p → diffCount inp.frame p ≤ 5 →
      s.isMotionDetected = true →
      s.stabilityThreshold < inp.now - s.stabilityTimer →
      s.isProcessing = false → 3000 < inp.now - s.lastCaptureTime →
      (processCloudMotion s inp).2 = true ∧
      (processCloudMotion s inp).1.gestureStatus = Status.CAPTURING ∧
      (processCloudMotion s inp).1.isMotionDetected = false ∧
      (diffCount inp2.frame inp.frame ≤ 5 →
        (processCloudMotion (processCloudMotion s inp).1 inp2).2 = false ∧
        (processCloudMotion (processCloudMotion s inp).1
          inp2).1.gestureStatus = Status.IDLE)) ∧
    (∀ (s0 : MachineState) (evs : List CloudEvent) (i j : Nat)
      (inpi inpj : CloudInput), i < j → j < evs.length →
      evs.getD i (.settle true) = .frame inpi →
      evs.getD j (.settle true) = .frame inpj →
      firedAt s0 evs i = true → firedAt s0 evs j = true →
      (∀ k, i < k → k < j → firedAt s0 evs k = false) →
      3000 < inpj.now - inpi.now) := by
  refine ⟨?_, ?_, ?_⟩
  · intro s inp p hprev hdiff
    rw [processCloudMotion_moving s inp p hprev hdiff]
    exact ⟨rfl, rfl, rfl, rfl⟩
  · intro s inp inp2 p hprev hdiff hmot hdur hproc hrate
    have hcap := processCloudMotion_capture s inp p hprev
      (by omega) hmot hdur hproc hrate
    rw [hcap]
    refine ⟨rfl, rfl, rfl, fun hd2 => ?_⟩
    rw [processCloudMotion_idle _ inp2 inp.frame rfl (by omega) rfl]
    exact ⟨rfl, rfl⟩
  · intro s0 evs i j inpi inpj hij hjlen hei hej hfi hfj hnof
    have hi : i < evs.length := by omega
    have hlast := lastCapture_between s0 evs i hi inpi hei hfi j hij
      (by omega) hnof
    unfold firedAt at hfj
    rw [hej] at hfj
    have := (processCloudMotion_fired _ _ hfj).2.1
    rw [hlast] at this
    omega

/-- Witness for C7 on the concrete cloud trace: part (a) at the first
motion frame, part (b) at the first capture, and part (c) for the two
captures of `cloudTrace` (indices 1 and 5), 3100 ms apart. -/
theorem C7_motion_gated_capture_witness :
    ((processCloudMotion cloudStart
        ⟨brightFrame, 100000⟩).1.gestureStatus = Status.MOVING ∧
      (processCloudMotion cloudStart
        ⟨brightFrame, 100000⟩).1.isMotionDetected = true ∧
      (processCloudMotion cloudStart
        ⟨brightFrame, 100000⟩).1.stabilityTimer = 100000 ∧
      (processCloudMotion cloudStart ⟨brightFrame, 100000⟩).2 = false) ∧
    ((processCloudMotion (processCloudMotion cloudStart
        ⟨brightFrame, 100000⟩).1 ⟨brightFrame, 101200⟩).2 = true ∧
      (processCloudMotion (processCloudMotion cloudStart
        ⟨brightFrame, 100000⟩).1
          ⟨brightFrame, 101200⟩).1.gestureStatus = Status.CAPTURING) ∧
    (3000 : Int) <
      (⟨darkFrame, 104300⟩ : CloudInput).now -
        (⟨brightFrame, 101200⟩ : CloudInput).now := by
  refine ⟨?_, ?_, ?_⟩
  · exact C7_motion_gated_capture.1 cloudStart ⟨brightFrame, 100000⟩
      darkFrame (by decide) (by decide)
  · have h := C7_motion_gated_capture.2.1 (processCloudMotion cloudStart
      ⟨brightFrame, 100000⟩).1 ⟨brightFrame, 101200⟩ ⟨brightFrame, 101300⟩
      brightFrame (by decide) (by decide) (by decide) (by decide)
      (by decide) (by decide)
    exact ⟨h.1, h.2.1⟩
  · exact C7_motion_gated_capture.2.2 cloudStart cloudTrace 1 5
      ⟨brightFrame, 101200⟩ ⟨darkFrame, 104300⟩ (by decide) (by decide)
      (by decide) (by decide) (by decide) (by decide)
      (by intro k hk1 hk2; interval_cases k <;> decide)

/-- C9: while an analysis call is outstanding (`isProcessing` set) the
capture trigger never fires; neither does it fire inside the 3000 ms
rate-limit window; and settling the call — success or failure alike —
clears the processing flag and leaves the machine in `IDLE`. -/
theorem C9_processing_guard_and_recovery :
    (∀ (s : MachineState) (inp : CloudInput), s.isProcessing = true →
      (processCloudMotion s inp).2 = false) ∧
    (∀ (s : MachineState) (inp : CloudInput),
      inp.now - s.lastCaptureTime ≤ 3000 →
      (processCloudMotion s inp).2 = false) ∧
    (∀ (s : MachineState) (b : Bool),
      (captureSettle s b).isProcessing = false ∧
      (captureSettle s b).gestureStatus = Status.IDLE) := by
  refine ⟨?_, ?_, fun s b => ⟨rfl, rfl⟩⟩
  · intro s inp hproc
    by_contra hne
    have hfired : (processCloudMotion s inp).2 = true := by
      rcases hfb : (processCloudMotion s inp).2 with _ | _
      · exact absurd hfb hne
      · rfl
    have := (processCloudMotion_fired s inp hfired).1
    rw [hproc] at this
    exact absurd this (by simp)
  · intro s inp hrate
    by_contra hne
    have hfired : (processCloudMotion s inp).2 = true := by
      rcases hfb : (processCloudMotion s inp).2 with _ | _
      · exact absurd hfb hne
      · rfl
    have := (processCloudMotion_fired s inp hfired).2.1
    omega

/-- Witness for C9: the processing-flag guard and the rate-limit guard
hold at the stale mid-session state, and settling from it recovers to
`IDLE` with the flag cleared. -/
theorem C9_processing_guard_and_recovery_witness :
    (processCloudMotion { staleState with isProcessing := true }
      ⟨darkFrame, 800⟩).2 = false ∧
    (processCloudMotion staleState ⟨darkFrame, 900⟩).2 = false ∧
    (captureSettle staleState false).isProcessing = false ∧
    (captureSettle staleState false).gestureStatus = Status.IDLE :=
  ⟨C9_processing_guard_and_recovery.1 _ ⟨darkFrame, 800⟩ rfl,
   C9_processing_guard_and_recovery.2.1 staleState ⟨darkFrame, 900⟩
     (by decide),
   (C9_processing_guard_and_recovery.2.2 staleState false).1,
   (C9_processing_guard_and_recovery.2.2 staleState false).2⟩

/-! ## Mode switch and session stop (claim C8) -/

/-- Counterexample to C8 as stated: from a stale mid-session state, the
mode-switch effect leaves the rolling motion reference, the motion flag
and the stability timer untouched, and `stopCamera` discards nothing of
the pipeline state at all. -/
theorem C8_counterexample :
    (modeSwitchReset staleState).previousFrame = some [255, 0, 0, 255] ∧
    (modeSwitchReset staleState).isMotionDetected = true ∧
    (modeSwitchReset staleState).stabilityTimer = 700 ∧
    (stopCamera staleState).gestureHistory = [⟨"A", 1⟩] ∧
    (stopCamera staleState).lastConfirmedGesture = some "A" ∧
    (stopCamera staleState).previousFrame = some [255, 0, 0, 255] :=
  ⟨rfl, rfl, rfl, rfl, rfl, rfl⟩

/-- C8 (amended): the mode-switch effect synchronously clears the
observation history, the last-confirmed label and the segmentation
status (to `IDLE`), but leaves the rolling motion reference — previous
frame sample, motion flag and stability timer — unchanged; stopping the
session (`stopCamera`) only tears down the camera loop and clears none
of the pipeline history or state. -/
theorem C8_reset_scope_amended (s : MachineState) :
    (modeSwitchReset s).gestureHistory = [] ∧
    (modeSwitchReset s).lastConfirmedGesture = none ∧
    (modeSwitchReset s).gestureStatus = Status.IDLE ∧
    (modeSwitchReset s).previousFrame = s.previousFrame ∧
    (modeSwitchReset s).isMotionDetected = s.isMotionDetected ∧
    (modeSwitchReset s).stabilityTimer = s.stabilityTimer ∧
    (modeSwitchReset s).gestureCooldown = s.gestureCooldown ∧
    (stopCamera s).gestureHistory = s.gestureHistory ∧
    (stopCamera s).lastConfirmedGesture = s.lastConfirmedGesture ∧
    (stopCamera s).gestureStatus = s.gestureStatus ∧
    (stopCamera s).previousFrame = s.previousFrame ∧
    (stopCamera s).isMotionDetected = s.isMotionDetected ∧
    (stopCamera s).stabilityTimer = s.stabilityTimer :=
  ⟨rfl, rfl, rfl, rfl, rfl, rfl, rfl, rfl, rfl, rfl, rfl, rfl, rfl⟩

/-! ## Geometric classifier (claims C5 and C6) -/

lemma calcDistanceSq_nonneg (p1 p2 : Point) : 0 ≤ calcDistanceSq p1 p2 := by
  unfold calcDistanceSq
  positivity

/-- The embedded squared-distance comparison agrees with the source's
genuine Euclidean-distance comparison (`Math.sqrt` of the sum of
squares): square root is strictly monotone on nonnegatives. -/
lemma isFingerCurled_iff_sqrt_dist_lt (lm : Hand) (tipIdx pipIdx : Fin 21)
    (wrist : Point) :
    isFingerCurled lm tipIdx pipIdx wrist = true ↔
      Real.sqrt ((calcDistanceSq (lm tipIdx) wrist : ℚ) : ℝ) <
        Real.sqrt ((calcDistanceSq (lm pipIdx) wrist : ℚ) : ℝ) := by
  rw [isFingerCurled, decide_eq_true_eq]
  rw [Real.sqrt_lt_sqrt_iff
    (Rat.cast_nonneg.mpr (calcDistanceSq_nonneg (lm tipIdx) wrist))]
  exact Iff.symm Rat.cast_lt

/-- Counterexample to C5 as stated: `rockOnThumbHand` has index and
pinky open, middle and ring curled, and the thumb OPEN, yet the
classifier still answers the rock-on label (the source's rule places no
constraint on the thumb), so among index+pinky shapes the rock-on label
is not returned *only* when all other fingers including the thumb are
closed. -/
theorem C5_counterexample :
    detectCustomGestures rockOnThumbHand = some "Rock_On" ∧
    isFingerCurled rockOnThumbHand 4 3 (rockOnThumbHand 0) = false ∧
    isFingerCurled rockOnThumbHand 8 7 (rockOnThumbHand 0) = false ∧
    isFingerCurled rockOnThumbHand 20 19 (rockOnThumbHand 0) = false ∧
    isFingerCurled rockOnThumbHand 12 11 (rockOnThumbHand 0) = true ∧
    isFingerCurled rockOnThumbHand 16 15 (rockOnThumbHand 0) = true := by
  refine ⟨?_, ?_, ?_, ?_, ?_, ?_⟩ <;>
    norm_num [detectCustomGestures, isFingerCurled, calcDistanceSq,
      rockOnThumbHand]

/-- C5 (amended): the classifier returns the rock-on label for every
landmark set with index and pinky open and middle and ring closed,
regardless of thumb state — in particular when all other fingers
including the thumb are closed.  (The call-me rule, matched first, never
fires on these shapes since it requires the index closed, so the rule
order is respected.) -/
theorem C5_rock_on_amended (l : Hand)
    (hidx : isFingerCurled l 8 7 (l 0) = false)
    (hpky : isFingerCurled l 20 19 (l 0) = false)
    (hmid : isFingerCurled l 12 11 (l 0) = true)
    (hrng : isFingerCurled l 16 15 (l 0) = true) :
    detectCustomGestures l = some "Rock_On" := by
  simp [detectCustomGestures, hidx, hpky, hmid, hrng]

/-- Witness for the amended C5: the canonical rock-on hand (thumb also
curled) is classified as rock-on. -/
theorem C5_rock_on_amended_witness :
    detectCustomGestures rockOnHand = some "Rock_On" :=
  C5_rock_on_amended rockOnHand
    (by norm_num [isFingerCurled, calcDistanceSq, rockOnHand])
    (by norm_num [isFingerCurled, calcDistanceSq, rockOnHand])
    (by norm_num [isFingerCurled, calcDistanceSq, rockOnHand])
    (by norm_num [isFingerCurled, calcDistanceSq, rockOnHand])

/-- C6: a landmark set whose thumb tip and pinky tip are both closer to
the wrist than their respective middle (PIP) joints — i.e. both curled —
while index, middle and ring are farther (open) is never classified as
the thumb+pinky-open call-me label; and a finger counts as curled
exactly when its tip-to-wrist Euclidean distance is less than its
middle-joint-to-wrist Euclidean distance. -/
theorem C6_call_me_curl_polarity :
    (∀ l : Hand,
      isFingerCurled l 4 3 (l 0) = true →
      isFingerCurled l 20 19 (l 0) = true →
      isFingerCurled l 8 7 (l 0) = false →
      isFingerCurled l 12 11 (l 0) = false →
      isFingerCurled l 16 15 (l 0) = false →
      detectCustomGestures l ≠ some "Call_Me") ∧
    (∀ (lm : Hand) (tipIdx pipIdx : Fin 21) (wrist : Point),
      isFingerCurled lm tipIdx pipIdx wrist = true ↔
        Real.sqrt ((calcDistanceSq (lm tipIdx) wrist : ℚ) : ℝ) <
          Real.sqrt ((calcDistanceSq (lm pipIdx) wrist : ℚ) : ℝ)) := by
  refine ⟨?_, isFingerCurled_iff_sqrt_dist_lt⟩
  intro l h4 h20 h8 h12 h16
  simp [detectCustomGestures, h4, h20, h8, h12, h16]

/-- Witness for C6: the curl-polarity test hand (thumb and pinky curled,
all other fingers open) is not classified as call-me. -/
theorem C6_call_me_curl_polarity_witness :
    detectCustomGestures curledThumbPinkyHand ≠ some "Call_Me" :=
  C6_call_me_curl_polarity.1 curledThumbPinkyHand
    (by norm_num [isFingerCurled, calcDistanceSq, curledThumbPinkyHand])
    (by norm_num [isFingerCurled, calcDistanceSq, curledThumbPinkyHand])
    (by norm_num [isFingerCurled, calcDistanceSq, curledThumbPinkyHand])
    (by norm_num [isFingerCurled, calcDistanceSq, curledThumbPinkyHand])
    (by norm_num [isFingerCurled, calcDistanceSq, curledThumbPinkyHand])

end GestureRec
